import Mathlib

/-!
Verification of the projectgen repository's validation chain and generation
pipeline (src/generator/validator.py, src/generator/cli.py,
src/generator/creator.py) against its natural-language specification.

Paths are modelled as lists of components (`List String`); the filesystem is
an explicit record of directories, files, and two environment oracles for
OS-level failures (paths on which mkdir/write raises, and directories that
are not writable per os.access).
-/

/- ## Project-name check (validator.py, ProjectNameValidator)

`re.match(r'^[a-zA-Z0-9][a-zA-Z0-9_-]*$', name)`: the character classes are
the ASCII ranges; Python's `$` (without re.MULTILINE) matches at the end of
the string or just before a newline that is the last character. -/

def isNameStart (c : Char) : Bool := c.isAlpha || c.isDigit

def isNameChar (c : Char) : Bool := isNameStart c || c = '_' || c = '-'

/-- The language of the regex `^[a-zA-Z0-9][a-zA-Z0-9_-]*$` read as a plain
full-string match (anchors = string boundaries). -/
def matchesNameRegex (cs : List Char) : Bool :=
  match cs with
  | [] => false
  | c :: rest => isNameStart c && rest.all isNameChar

/-- Truthiness of Python's `re.match(r'^[a-zA-Z0-9][a-zA-Z0-9_-]*$', s)`:
the whole string is in the language, or the string minus a single trailing
newline is (Python's `$` also matches just before a string-final newline). -/
def reMatchesName (s : String) : Bool :=
  matchesNameRegex s.data ||
    (if s.data.getLast? = some '\n' then matchesNameRegex s.data.dropLast else false)

inductive VError where
  | badNameFormat
  | nameTooShort
  | destinationOccupied
  | parentMissing
  | parentNotWritable
deriving DecidableEq, Repr

/-- ProjectNameValidator._do_validate: regex check first, then the length
check; `none` means no exception raised. -/
def nameCheckResult (name : String) : Option VError :=
  if reMatchesName name = false then some .badNameFormat
  else if name.length < 2 then some .nameTooShort
  else none

/-- Modelled from the spec's words for the refinement comparison of the
name-format claim: a name passes exactly when it matches
`^[A-Za-z0-9][A-Za-z0-9_-]*$` (full-string reading) and has length >= 2. -/
def specNameAccepts (s : String) : Bool :=
  matchesNameRegex s.data && decide (2 ≤ s.length)

/- ## Filesystem model -/

def lookupFile : List (List String × String) → List String → Option String
  | [], _ => none
  | (q, c) :: rest, p => if q = p then some c else lookupFile rest p

/-- Filesystem and environment state. `badPaths` are paths on which the OS
raises (permissions, disk) when mkdir/write touches them; `unwritable` are
directories for which `os.access(dir, W_OK)` is false. -/
structure FS where
  dirs : List (List String)
  files : List (List String × String)
  badPaths : List (List String)
  unwritable : List (List String)
deriving DecidableEq, Repr

/-- `Path.exists()`: the relative root `.` always exists; otherwise a
directory or file must be present at the path. -/
def FS.pathExists (fs : FS) (p : List String) : Bool :=
  p.isEmpty || fs.dirs.contains p || (lookupFile fs.files p).isSome

/-- `any(target_path.iterdir())`: some directory or file lies strictly
below `p`. -/
def FS.dirNonEmpty (fs : FS) (p : List String) : Bool :=
  fs.dirs.any (fun d => p.isPrefixOf d && !(d == p)) ||
  fs.files.any (fun f => p.isPrefixOf f.1 && !(f.1 == p))

/- ## Validator chain (validator.py)

The chain-of-responsibility structure (each validator holding an optional
`_next`) is embedded as the list of validators in link order; `chainRun`
mirrors `Validator.validate`: run this validator's `_do_validate`, and only
if it does not raise, delegate to the next.  Alongside the outcome it
returns the list of validators whose `_do_validate` was executed. -/

inductive CheckKind where
  | projectName
  | directoryExists
  | writablePath
deriving DecidableEq, Repr

/-- `_do_validate` of each concrete validator, as a pure function of the
name, the target path and the filesystem. -/
def doCheck : CheckKind → String → List String → FS → Option VError
  | .projectName, name, _, _ => nameCheckResult name
  | .directoryExists, _, target, fs =>
      if fs.pathExists target && fs.dirNonEmpty target then some .destinationOccupied
      else none
  | .writablePath, _, target, fs =>
      if fs.pathExists target.dropLast = false then some .parentMissing
      else if target.dropLast ∈ fs.unwritable then some .parentNotWritable
      else none

/-- `Validator.validate` over a chain: first raised error wins; second
component is the trace of validators actually executed. -/
def chainRun : List CheckKind → String → List String → FS → Option VError × List CheckKind
  | [], _, _, _ => (none, [])
  | c :: rest, name, target, fs =>
      match doCheck c name target fs with
      | some e => (some e, [c])
      | none =>
          let r := chainRun rest name target fs
          (r.1, c :: r.2)

/-- create_validator_chain():
ProjectNameValidator(DirectoryExistsValidator(WritablePathValidator())). -/
def createValidatorChain : List CheckKind :=
  [.projectName, .directoryExists, .writablePath]

/-- CLI._validate: `if not args.overwrite: self._validator_chain.validate(name,
output_dir / name)` — with overwrite requested, nothing is validated. -/
def cliValidate (overwrite : Bool) (name : String) (outputDir : List String)
    (fs : FS) : Option VError × List CheckKind :=
  if overwrite then (none, [])
  else chainRun createValidatorChain name (outputDir ++ [name]) fs

/- ## Templates (templates/base.py) -/

/-- `content: str | Callable[[], str]`. -/
inductive TemplateContent where
  | lit (s : String)
  | gen (f : Unit → String)

structure FileTemplate where
  relativePath : String
  content : TemplateContent

/-- FileTemplate.get_content: call it if callable, else return it. -/
def FileTemplate.getContent (t : FileTemplate) : String :=
  match t.content with
  | .lit s => s
  | .gen f => f ()

/-- Component accumulator for splitting a path string at every slash. -/
def splitPathAux : List Char → List Char → List String
  | [], cur => [String.mk cur.reverse]
  | c :: rest, cur =>
      if c = '/' then String.mk cur.reverse :: splitPathAux rest []
      else splitPathAux rest (c :: cur)

/-- `Path(s)` on a relative path string: split into components at `/`. -/
def splitPath (s : String) : List String := splitPathAux s.data []

/- ## Directory derivation (creator.py, _extract_directories) -/

/-- The parent chain over the reversed component list: dropping the last
component of a path is dropping the head of its reversal. -/
def dirAndAncestorsRev : List String → List (List String)
  | [] => []
  | c :: rest => (c :: rest).reverse :: dirAndAncestorsRev rest

/-- The while-loop `while current != Path(".")`: the directory itself and
its chain of parents (`current = current.parent` each iteration), stopping
before the relative root.  See `dirAndAncestors_eq` for the loop-shaped
unfolding. -/
def dirAndAncestors (p : List String) : List (List String) :=
  dirAndAncestorsRev p.reverse

/-- `set.add` on a Python set of paths, modelled on a duplicate-free list. -/
def insertPath (d : List String) (ds : List (List String)) : List (List String) :=
  if d ∈ ds then ds else d :: ds

def insertAll (ds : List (List String)) (new : List (List String)) : List (List String) :=
  new.foldl (fun acc d => insertPath d acc) ds

/-- The loop body of _extract_directories for one template: add the parent
of its relative path and all that parent's ancestors to the set. -/
def extractStep (acc : List (List String)) (t : FileTemplate) : List (List String) :=
  insertAll acc (dirAndAncestors (splitPath t.relativePath).dropLast)

/-- _extract_directories: start from `{Path(".")}` and fold the per-template
step over the template list. -/
def extractDirectories (ts : List FileTemplate) : List (List String) :=
  ts.foldl extractStep [[]]

/-- `sorted(dirs)`: paths compare as their slash-joined strings (POSIX
PurePath ordering). -/
def pathKey (p : List String) : String := String.intercalate "/" p

def insertSorted (d : List String) : List (List String) → List (List String)
  | [] => [d]
  | x :: xs => if pathKey d ≤ pathKey x then d :: x :: xs else x :: insertSorted d xs

def sortPaths : List (List String) → List (List String)
  | [] => []
  | x :: xs => insertSorted x (sortPaths xs)

/- ## Filesystem operations of the pipeline -/

inductive CreateError where
  | osError
  | missingParent
deriving DecidableEq, Repr

/-- `p.mkdir(parents=True, exist_ok=True)`: raises on an OS-denied path,
otherwise records the directory and all its ancestors, tolerating existing
ones.  An error carries the filesystem at the point of failure. -/
def FS.mkdirParents (fs : FS) (p : List String) : Except (CreateError × FS) FS :=
  if p ∈ fs.badPaths then .error (.osError, fs)
  else .ok { fs with dirs := insertAll fs.dirs (dirAndAncestors p) }

/-- `p.write_text(content)`: raises on an OS-denied path; raises
FileNotFoundError when the parent directory is absent; otherwise replaces
or creates the file's contents. -/
def FS.writeText (fs : FS) (p : List String) (c : String) : Except (CreateError × FS) FS :=
  if p ∈ fs.badPaths then .error (.osError, fs)
  else if p.dropLast = [] ∨ p.dropLast ∈ fs.dirs then
    .ok { fs with files := (p, c) :: fs.files }
  else .error (.missingParent, fs)

/- ## Pipeline steps (creator.py) -/

/-- The loop body of _create_directories over the sorted directory list. -/
def mkdirAll (base : List String) : List (List String) → FS → Except (CreateError × FS) FS
  | [], fs => .ok fs
  | d :: rest, fs =>
      match fs.mkdirParents (base ++ d) with
      | .error e => .error e
      | .ok fs' => mkdirAll base rest fs'

/-- _create_directories: derive the directory set, sort it, mkdir each
under the target path. -/
def createDirectories (base : List String) (ts : List FileTemplate) (fs : FS) :
    Except (CreateError × FS) FS :=
  mkdirAll base (sortPaths (extractDirectories ts)) fs

/-- The loop body of _create_files: skip an existing file unless overwrite
is set; otherwise ensure the parent directory exists, then write. -/
def createFilesGo (base : List String) (overwrite : Bool) :
    List FileTemplate → FS → Except (CreateError × FS) FS
  | [], fs => .ok fs
  | t :: rest, fs =>
      let p := base ++ splitPath t.relativePath
      if fs.pathExists p && !overwrite then createFilesGo base overwrite rest fs
      else
        match fs.mkdirParents p.dropLast with
        | .error e => .error e
        | .ok fs1 =>
            match fs1.writeText p t.getContent with
            | .error e => .error e
            | .ok fs2 => createFilesGo base overwrite rest fs2

def createFiles (base : List String) (ts : List FileTemplate) (overwrite : Bool)
    (fs : FS) : Except (CreateError × FS) FS :=
  createFilesGo base overwrite ts fs

/- ## External tool steps (creator.py, steps 4 and 5) -/

/-- Outcome of one `subprocess.run(..., check=True, timeout=...)` call:
the three non-success cases are exactly the exceptions the creator catches. -/
inductive ToolResult where
  | success
  | calledProcessError
  | fileNotFound
  | timeoutExpired
deriving DecidableEq, Repr

structure ToolEnv where
  gitInit : ToolResult
  gitAdd : ToolResult
  preCommit : ToolResult
deriving DecidableEq, Repr

inductive ToolEvent where
  | gitInit
  | gitAddGitignore
  | preCommitInstall
deriving DecidableEq, Repr

/-- _initialize_git: return early if `.git` exists; otherwise try
`git init` then `git add .gitignore`, absorbing every tool failure.  The
second component records which external invocations were attempted. -/
def gitInitStep (env : ToolEnv) (base : List String) (fs : FS) : FS × List ToolEvent :=
  if (base ++ [".git"]) ∈ fs.dirs then (fs, [])
  else
    match env.gitInit with
    | .success =>
        let fs' := { fs with dirs := insertPath (base ++ [".git"]) fs.dirs }
        (fs', [.gitInit, .gitAddGitignore])
    | _ => (fs, [.gitInit])

/-- _install_pre_commit: unconditionally run `pre-commit install`,
absorbing every tool failure. -/
def preCommitStep (_env : ToolEnv) (_base : List String) (fs : FS) : FS × List ToolEvent :=
  (fs, [.preCommitInstall])

/- ## The pipeline (ProjectCreator.create)

Step 1 (collect templates) is pure list building in the source; the
pipeline below is parameterized by its result, the collected template
list. -/

def ProjectCreator.create (env : ToolEnv) (base : List String)
    (templates : List FileTemplate) (overwrite : Bool) (fs : FS) :
    Except (CreateError × FS) (FS × List ToolEvent) :=
  match createDirectories base templates fs with
  | .error e => .error e
  | .ok fs1 =>
      match createFiles base templates overwrite fs1 with
      | .error e => .error e
      | .ok fs2 =>
          let g := gitInitStep env base fs2
          let pc := preCommitStep env base g.1
          .ok (pc.1, g.2 ++ pc.2)

/-- The external invocations of a completed pipeline run. -/
def createEvents (env : ToolEnv) (base : List String) (templates : List FileTemplate)
    (overwrite : Bool) (fs : FS) : Option (List ToolEvent) :=
  match ProjectCreator.create env base templates overwrite fs with
  | .ok r => some r.2
  | .error _ => none

def exceptOk {ε α : Type} : Except ε α → Bool
  | .ok _ => true
  | .error _ => false

def missingParentErr : Except (CreateError × FS) FS → Bool
  | .error (.missingParent, _) => true
  | _ => false

/- ## The CLI run loop (cli.py, CLI.run)

The try-block runs header and prompts, then validation, then the
confirmation prompt, then creation.  `interruptedEarly` models a
KeyboardInterrupt during the prompts before validation;
`confirmAccepted = false` models the explicit rejection at the
confirmation prompt (which raises KeyboardInterrupt); an exception from
the creation steps is the "unexpected error" case. -/

structure RunConfig where
  overwrite : Bool
  name : String
  outputDir : List String
  confirmAccepted : Bool
  interruptedEarly : Bool
  env : ToolEnv
  templates : List FileTemplate

def cliRun (cfg : RunConfig) (fs : FS) : Nat × FS :=
  if cfg.interruptedEarly then (130, fs)
  else
    match (cliValidate cfg.overwrite cfg.name cfg.outputDir fs).1 with
    | some _ => (1, fs)
    | none =>
        if cfg.confirmAccepted = false then (130, fs)
        else
          match ProjectCreator.create cfg.env (cfg.outputDir ++ [cfg.name])
              cfg.templates cfg.overwrite fs with
          | .error e => (1, e.2)
          | .ok r => (0, r.1)

/- ## Claims about the validation chain and the CLI -/

/-- C3: invoking the validation chain built by create_validator_chain runs
name-format, then destination-not-occupied, then writable-parent, stopping
at the first check that raises; when the name-format check fails, the
destination and writable-parent checks are never executed (the execution
trace is exactly `[projectName]`). -/
theorem chain_order_short_circuit (name : String) (target : List String) (fs : FS) :
    (∀ e, doCheck .projectName name target fs = some e →
      chainRun createValidatorChain name target fs = (some e, [.projectName]))
  ∧ (doCheck .projectName name target fs = none →
      ∀ e, doCheck .directoryExists name target fs = some e →
        chainRun createValidatorChain name target fs =
          (some e, [.projectName, .directoryExists]))
  ∧ (doCheck .projectName name target fs = none →
      doCheck .directoryExists name target fs = none →
        chainRun createValidatorChain name target fs =
          (doCheck .writablePath name target fs,
           [.projectName, .directoryExists, .writablePath])) := by
  refine ⟨?_, ?_, ?_⟩
  · intro e h; simp_all [chainRun, createValidatorChain]
  · intro h1 e h2; simp_all [chainRun, createValidatorChain]
  · intro h1 h2
    cases h3 : doCheck .writablePath name target fs <;>
      simp_all [chainRun, createValidatorChain]

/-- Witness for C3 at a concrete input: the one-character name "x" fails the
name-format check, and the chain stops there. -/
theorem chain_order_short_circuit_witness :
    chainRun createValidatorChain "x" ["out", "x"] ⟨[], [], [], []⟩ =
      (some VError.nameTooShort, [CheckKind.projectName]) :=
  (chain_order_short_circuit "x" ["out", "x"] ⟨[], [], [], []⟩).1 VError.nameTooShort (by decide)

/-- C1 counterexample: on a run with overwrite requested and the invalid
one-character name "x", the caller executes no validation check at all
(empty execution trace, no error), although the name-format check would
have raised — refuting that the name-format and writable-parent checks are
still executed on overwrite runs. -/
theorem overwrite_run_no_checks_cex :
    cliValidate true "x" ["home"] ⟨[], [], [], []⟩ = (none, [])
  ∧ nameCheckResult "x" = some VError.nameTooShort := by decide

/-- C1 amended: when the user requests overwrite, CLI._validate skips the
entire validation chain (no check runs, nothing is raised); when overwrite
is not requested, the chain runs and its first executed check is the
name-format check. -/
theorem overwrite_skips_entire_chain (name : String) (outputDir : List String) (fs : FS) :
    cliValidate true name outputDir fs = (none, [])
  ∧ CheckKind.projectName ∈ (cliValidate false name outputDir fs).2 := by
  constructor
  · simp [cliValidate]
  · cases h : doCheck .projectName name (outputDir ++ [name]) fs <;>
      simp [cliValidate, createValidatorChain, chainRun, h]

/-- C4 counterexample: the name "a\n" (letter followed by a newline) does
not match `^[a-zA-Z0-9][a-zA-Z0-9_-]*$` as a full-string language, yet the
name-format check passes it, because Python's `$` also matches just before
a string-final newline — refuting that every non-matching name raises. -/
theorem name_check_newline_cex :
    nameCheckResult "a\n" = none
  ∧ specNameAccepts "a\n" = false
  ∧ matchesNameRegex ("a\n".data) = false := by decide

/-- C4 amended: the name-format check passes exactly the names that match
the regex (full-string reading) with length >= 2, plus the names consisting
of a matching string followed by one trailing newline (total length still
counted, >= 2); every other name raises. -/
theorem name_check_characterization (s : String) :
    nameCheckResult s = none ↔
      ((matchesNameRegex s.data = true ∨
        (s.data.getLast? = some '\n' ∧ matchesNameRegex s.data.dropLast = true)) ∧
       2 ≤ s.length) := by
  by_cases hl : s.data.getLast? = some '\n' <;>
  by_cases h1 : matchesNameRegex s.data <;>
  by_cases h2 : matchesNameRegex s.data.dropLast <;>
  simp [nameCheckResult, reMatchesName, hl, h1, h2]

/-- C5: whenever the validation chain raises, the CLI run loop returns exit
status 1 with the filesystem completely unchanged — in particular the
target project directory is never created, since the run aborts before the
generation pipeline starts and the checks themselves are pure reads. -/
theorem validation_fail_no_mutation (cfg : RunConfig) (fs : FS) (e : VError)
    (hni : cfg.interruptedEarly = false)
    (hv : (cliValidate cfg.overwrite cfg.name cfg.outputDir fs).1 = some e) :
    cliRun cfg fs = (1, fs) := by
  simp [cliRun, hni, hv]

/-- Witness for C5: the one-character name "x" fails validation and the run
returns 1 leaving the empty filesystem untouched. -/
theorem validation_fail_no_mutation_witness :
    cliRun ⟨false, "x", [], true, false, ⟨.success, .success, .success⟩, []⟩ ⟨[], [], [], []⟩
      = (1, ⟨[], [], [], []⟩) :=
  validation_fail_no_mutation _ _ VError.nameTooShort rfl (by decide)

/-- C9: the CLI run loop returns only the exit statuses 0, 1 and 130: 0 when
validation passed, the user confirmed and creation succeeded; 1 when the
validation chain raised or creation raised an unexpected exception; 130
when the user cancelled (keyboard interruption during the prompts, or
explicit rejection at the confirmation prompt). -/
theorem cli_exit_codes (cfg : RunConfig) (fs : FS) :
    ((cliRun cfg fs).1 = 0 ∨ (cliRun cfg fs).1 = 1 ∨ (cliRun cfg fs).1 = 130)
  ∧ (cfg.interruptedEarly = true → (cliRun cfg fs).1 = 130)
  ∧ (∀ e, cfg.interruptedEarly = false →
      (cliValidate cfg.overwrite cfg.name cfg.outputDir fs).1 = some e →
      (cliRun cfg fs).1 = 1)
  ∧ (cfg.interruptedEarly = false →
      (cliValidate cfg.overwrite cfg.name cfg.outputDir fs).1 = none →
      cfg.confirmAccepted = false → (cliRun cfg fs).1 = 130)
  ∧ (∀ err fsPartial, cfg.interruptedEarly = false →
      (cliValidate cfg.overwrite cfg.name cfg.outputDir fs).1 = none →
      cfg.confirmAccepted = true →
      ProjectCreator.create cfg.env (cfg.outputDir ++ [cfg.name]) cfg.templates cfg.overwrite fs
        = .error (err, fsPartial) →
      (cliRun cfg fs).1 = 1)
  ∧ (∀ fsDone evs, cfg.interruptedEarly = false →
      (cliValidate cfg.overwrite cfg.name cfg.outputDir fs).1 = none →
      cfg.confirmAccepted = true →
      ProjectCreator.create cfg.env (cfg.outputDir ++ [cfg.name]) cfg.templates cfg.overwrite fs
        = .ok (fsDone, evs) →
      (cliRun cfg fs).1 = 0) := by
  refine ⟨?_, ?_, ?_, ?_, ?_, ?_⟩
  · by_cases hi : cfg.interruptedEarly
    · simp [cliRun, hi]
    · rcases hv : (cliValidate cfg.overwrite cfg.name cfg.outputDir fs).1 with _ | e
      · by_cases hc : cfg.confirmAccepted = false
        · simp [cliRun, hi, hv, hc]
        · rcases hcr : ProjectCreator.create cfg.env (cfg.outputDir ++ [cfg.name])
              cfg.templates cfg.overwrite fs with ⟨err, fsP⟩ | ⟨fsD, evs⟩ <;>
            simp [cliRun, hi, hv, hc, hcr]
      · simp [cliRun, hi, hv]
  · intro hi; simp [cliRun, hi]
  · intro e hi hv; simp [cliRun, hi, hv]
  · intro hi hv hc; simp [cliRun, hi, hv, hc]
  · intro err fsP hi hv hc hcr; simp [cliRun, hi, hv, hc, hcr]
  · intro fsD evs hi hv hc hcr; simp [cliRun, hi, hv, hc, hcr]

/-- Witness for C9 at concrete inputs: an interrupted run returns 130, and
a run with the invalid name "x" returns 1. -/
theorem cli_exit_codes_witness :
    (cliRun ⟨false, "x", [], true, true, ⟨.success, .success, .success⟩, []⟩
        ⟨[], [], [], []⟩).1 = 130
  ∧ (cliRun ⟨false, "x", [], true, false, ⟨.success, .success, .success⟩, []⟩
        ⟨[], [], [], []⟩).1 = 1 :=
  ⟨(cli_exit_codes _ _).2.1 rfl,
   (cli_exit_codes _ _).2.2.1 VError.nameTooShort rfl (by decide)⟩

/- ## Set-insertion lemmas for the directory set -/

theorem mem_insertPath_self (d : List String) (ds : List (List String)) :
    d ∈ insertPath d ds := by
  unfold insertPath; split <;> simp_all

theorem mem_insertPath_of_mem {a : List String} {ds : List (List String)}
    (d : List String) (h : a ∈ ds) : a ∈ insertPath d ds := by
  unfold insertPath; split <;> simp_all

theorem nodup_insertPath (d : List String) {ds : List (List String)}
    (h : ds.Nodup) : (insertPath d ds).Nodup := by
  unfold insertPath
  split
  · exact h
  · exact List.nodup_cons.mpr ⟨by assumption, h⟩

theorem insertAll_cons (ds : List (List String)) (x : List String)
    (xs : List (List String)) : insertAll ds (x :: xs) = insertAll (insertPath x ds) xs := rfl

theorem mem_insertAll_left {a : List String} :
    ∀ (new : List (List String)) {ds : List (List String)}, a ∈ ds → a ∈ insertAll ds new := by
  intro new
  induction new with
  | nil => intro ds h; exact h
  | cons x xs ih => intro ds h; exact ih (mem_insertPath_of_mem x h)

theorem mem_insertAll_right {a : List String} :
    ∀ (new : List (List String)) (ds : List (List String)), a ∈ new → a ∈ insertAll ds new := by
  intro new
  induction new with
  | nil => intro ds h; cases h
  | cons x xs ih =>
    intro ds h
    rcases List.mem_cons.mp h with rfl | h'
    · exact mem_insertAll_left xs (mem_insertPath_self a ds)
    · exact ih _ h'

theorem nodup_insertAll :
    ∀ (new : List (List String)) {ds : List (List String)}, ds.Nodup →
      (insertAll ds new).Nodup := by
  intro new
  induction new with
  | nil => intro ds h; exact h
  | cons x xs ih => intro ds h; exact ih (nodup_insertPath x h)

theorem extract_foldl_mono {a : List String} :
    ∀ (ts : List FileTemplate) (acc : List (List String)), a ∈ acc →
      a ∈ ts.foldl extractStep acc := by
  intro ts
  induction ts with
  | nil => intro acc h; exact h
  | cons t rest ih => intro acc h; exact ih _ (mem_insertAll_left _ h)

theorem chain_mem_extract_aux {d : List String} :
    ∀ (ts : List FileTemplate) (acc : List (List String)) (t : FileTemplate), t ∈ ts →
      d ∈ dirAndAncestors (splitPath t.relativePath).dropLast →
        d ∈ ts.foldl extractStep acc := by
  intro ts
  induction ts with
  | nil => intro acc t ht; cases ht
  | cons x xs ih =>
    intro acc t ht hd
    rcases List.mem_cons.mp ht with rfl | h'
    · exact extract_foldl_mono xs _ (mem_insertAll_right _ acc hd)
    · exact ih _ t h' hd

theorem nodup_extract_aux :
    ∀ (ts : List FileTemplate) (acc : List (List String)), acc.Nodup →
      (ts.foldl extractStep acc).Nodup := by
  intro ts
  induction ts with
  | nil => intro acc h; exact h
  | cons x xs ih => intro acc h; exact ih _ (nodup_insertAll _ h)

/-- `dirAndAncestors` satisfies the recurrence of the source's while loop:
empty for the root, otherwise the path followed by the chain of its
parent. -/
theorem dirAndAncestors_eq (p : List String) :
    dirAndAncestors p = if p = [] then [] else p :: dirAndAncestors p.dropLast := by
  unfold dirAndAncestors
  rcases h : p.reverse with _ | ⟨c, rest⟩
  · have hp : p = [] := by simpa using congrArg List.reverse h
    simp [hp, dirAndAncestorsRev]
  · have hp : p = (c :: rest).reverse := by rw [← h, List.reverse_reverse]
    have hne : p ≠ [] := by rw [hp]; simp
    rw [if_neg hne, dirAndAncestorsRev]
    have hdrop : p.dropLast.reverse = rest := by
      rw [hp, List.reverse_cons, List.dropLast_concat, List.reverse_reverse]
    rw [hdrop]
    congr 1
    rw [← h, List.reverse_reverse]

theorem self_mem_dirAndAncestors {p : List String} (h : p ≠ []) :
    p ∈ dirAndAncestors p := by
  rw [dirAndAncestors_eq, if_neg h]
  exact List.mem_cons_self _ _

/-- Every prefix of length `k` (1 ≤ k ≤ length) of a directory path appears
in its parent-chain list. -/
theorem take_mem_dirAndAncestors :
    ∀ (n : Nat) (q : List String), q.length ≤ n → ∀ k, 1 ≤ k → k ≤ q.length →
      q.take k ∈ dirAndAncestors q := by
  intro n
  induction n with
  | zero => intro q hq k hk1 hk2; omega
  | succ n ih =>
    intro q hq k hk1 hk2
    have hne : q ≠ [] := by
      intro h; subst h; simp at hk2; omega
    rw [dirAndAncestors_eq, if_neg hne]
    rcases eq_or_lt_of_le hk2 with heq | hlt
    · rw [heq, List.take_length q]
      exact List.mem_cons_self _ _
    · apply List.mem_cons_of_mem
      have hdl : q.dropLast.length = q.length - 1 := List.length_dropLast q
      have h1 : k ≤ q.dropLast.length := by omega
      have h2 : q.dropLast.length ≤ n := by omega
      have hmem := ih q.dropLast h2 k hk1 h1
      have heq2 : q.dropLast.take k = q.take k := by
        rw [List.dropLast_eq_take q, List.take_take k (q.length - 1) q]
        have : min k (q.length - 1) = k := by omega
        rw [this]
      rwa [heq2] at hmem

/-- C8: the derived directory set contains the project root, and for every
template's relative path every ancestor directory of that path (every
proper nonempty prefix of its component list) up to the root, with no
duplicate entries. -/
theorem extract_directories_complete (ts : List FileTemplate) :
    ([] ∈ extractDirectories ts)
  ∧ (∀ t, t ∈ ts → ∀ k, 1 ≤ k → k < (splitPath t.relativePath).length →
      (splitPath t.relativePath).take k ∈ extractDirectories ts)
  ∧ (extractDirectories ts).Nodup := by
  refine ⟨?_, ?_, ?_⟩
  · exact extract_foldl_mono ts [[]] (by simp)
  · intro t ht k hk1 hk2
    have hlen : (splitPath t.relativePath).dropLast.length
        = (splitPath t.relativePath).length - 1 :=
      List.length_dropLast _
    have hq : ((splitPath t.relativePath).dropLast).take k
        ∈ dirAndAncestors ((splitPath t.relativePath).dropLast) :=
      take_mem_dirAndAncestors _ _ le_rfl k hk1 (by omega)
    have heq : ((splitPath t.relativePath).dropLast).take k
        = (splitPath t.relativePath).take k := by
      rw [List.dropLast_eq_take (splitPath t.relativePath),
        List.take_take k ((splitPath t.relativePath).length - 1) (splitPath t.relativePath)]
      have : min k ((splitPath t.relativePath).length - 1) = k := by omega
      rw [this]
    rw [← heq]
    exact chain_mem_extract_aux ts [[]] t ht hq
  · exact nodup_extract_aux ts [[]] (by simp)

/-- Witness for C8: for the single template `a/b/c.txt`, the ancestor
`a/b` of depth 2 is in the derived directory set. -/
theorem extract_directories_complete_witness :
    ["a", "b"] ∈ extractDirectories [⟨"a/b/c.txt", TemplateContent.lit ""⟩] :=
  (extract_directories_complete [⟨"a/b/c.txt", TemplateContent.lit ""⟩]).2.1
    ⟨"a/b/c.txt", TemplateContent.lit ""⟩ (List.Mem.head _) 2 (by decide) (by decide)

/- ## Characterizations of the filesystem operations -/

theorem mkdirParents_error_eq {fs : FS} {p : List String} {e : CreateError × FS}
    (h : fs.mkdirParents p = .error e) : e = (.osError, fs) := by
  unfold FS.mkdirParents at h
  split at h
  · injection h with h'; exact h'.symm
  · cases h

theorem mkdirParents_ok_spec {fs : FS} {p : List String} {fs1 : FS}
    (h : fs.mkdirParents p = .ok fs1) :
    fs1.files = fs.files ∧ fs1.badPaths = fs.badPaths ∧
    fs1.dirs = insertAll fs.dirs (dirAndAncestors p) := by
  unfold FS.mkdirParents at h
  split at h
  · cases h
  · injection h with h'; subst h'; exact ⟨rfl, rfl, rfl⟩

theorem writeText_ok_spec {fs : FS} {p : List String} {c : String} {fs2 : FS}
    (h : fs.writeText p c = .ok fs2) :
    fs2.files = (p, c) :: fs.files ∧ fs2.dirs = fs.dirs ∧ fs2.badPaths = fs.badPaths := by
  unfold FS.writeText at h
  split at h
  · cases h
  · split at h
    · injection h with h'; subst h'; exact ⟨rfl, rfl, rfl⟩
    · cases h

theorem lookup_none_of_not_pathExists {fs : FS} {p : List String}
    (h : fs.pathExists p = false) : lookupFile fs.files p = none := by
  cases hl : lookupFile fs.files p
  · rfl
  · unfold FS.pathExists at h
    rw [hl] at h
    simp at h

/- ## The write step never fails for a missing parent (mkdir precedes write) -/

theorem create_files_never_missing_parent_aux :
    ∀ (ts : List FileTemplate) (base : List String) (ow : Bool) (fs : FS),
      missingParentErr (createFilesGo base ow ts fs) = false := by
  intro ts
  induction ts with
  | nil => intro base ow fs; rfl
  | cons t rest ih =>
    intro base ow fs
    simp only [createFilesGo]
    cases hskip : fs.pathExists (base ++ splitPath t.relativePath) && !ow
    · simp only [hskip, Bool.false_eq_true, if_false]
      split
      · rename_i e hm
        have he := mkdirParents_error_eq hm
        subst he
        rfl
      · rename_i fs1 hm
        split
        · rename_i e hw
          unfold FS.writeText at hw
          split at hw
          · injection hw with h'
            subst h'
            rfl
          · split at hw
            · cases hw
            · exfalso
              rename_i hcond
              obtain ⟨hf, hb, hd⟩ := mkdirParents_ok_spec hm
              by_cases hpd : (base ++ splitPath t.relativePath).dropLast = []
              · exact hcond (Or.inl hpd)
              · apply hcond
                right
                rw [hd]
                exact mem_insertAll_right _ _ (self_mem_dirAndAncestors hpd)
        · rename_i fs2 hw
          exact ih base ow fs2
    · simp only [hskip, if_true]
      exact ih base ow fs

/- ## Write-step preservation lemmas -/

theorem createFilesGo_preserves_of_ne (base : List String) (ow : Bool) :
    ∀ (ts : List FileTemplate) (fs fs' : FS) (p0 : List String),
      createFilesGo base ow ts fs = .ok fs' →
      (∀ t, t ∈ ts → base ++ splitPath t.relativePath ≠ p0) →
      lookupFile fs'.files p0 = lookupFile fs.files p0 := by
  intro ts
  induction ts with
  | nil =>
    intro fs fs' p0 h hne
    simp only [createFilesGo] at h
    injection h with h'
    subst h'
    rfl
  | cons t rest ih =>
    intro fs fs' p0 h hne
    simp only [createFilesGo] at h
    cases hskip : fs.pathExists (base ++ splitPath t.relativePath) && !ow
    · rw [hskip] at h
      simp only [Bool.false_eq_true, if_false] at h
      split at h
      · cases h
      · rename_i fs1 hm
        split at h
        · cases h
        · rename_i fs2 hw
          rw [ih fs2 fs' p0 h (fun u hu => hne u (List.mem_cons_of_mem t hu))]
          obtain ⟨hf2, _, _⟩ := writeText_ok_spec hw
          obtain ⟨hf1, _, _⟩ := mkdirParents_ok_spec hm
          rw [hf2]
          simp only [lookupFile]
          rw [if_neg (hne t (List.mem_cons_self t rest))]
          rw [hf1]
    · rw [hskip] at h
      simp only [if_true] at h
      exact ih fs fs' p0 h (fun u hu => hne u (List.mem_cons_of_mem t hu))

theorem createFilesGo_no_ow_preserves (base : List String) :
    ∀ (ts : List FileTemplate) (fs fs' : FS),
      createFilesGo base false ts fs = .ok fs' →
      ∀ p c, lookupFile fs.files p = some c → lookupFile fs'.files p = some c := by
  intro ts
  induction ts with
  | nil =>
    intro fs fs' h p c hc
    simp only [createFilesGo] at h
    injection h with h'
    subst h'
    exact hc
  | cons t rest ih =>
    intro fs fs' h p c hc
    simp only [createFilesGo, Bool.not_false, Bool.and_true] at h
    cases hskip : fs.pathExists (base ++ splitPath t.relativePath)
    · rw [hskip] at h
      simp only [Bool.false_eq_true, if_false] at h
      split at h
      · cases h
      · rename_i fs1 hm
        split at h
        · cases h
        · rename_i fs2 hw
          apply ih fs2 fs' h p c
          obtain ⟨hf2, _, _⟩ := writeText_ok_spec hw
          obtain ⟨hf1, _, _⟩ := mkdirParents_ok_spec hm
          rw [hf2]
          have hnone : lookupFile fs.files (base ++ splitPath t.relativePath) = none :=
            lookup_none_of_not_pathExists hskip
          simp only [lookupFile]
          rw [if_neg (fun heq => by rw [heq, hc] at hnone; cases hnone)]
          rw [hf1]
          exact hc
    · rw [hskip] at h
      simp only [if_true] at h
      exact ih fs fs' h p c hc

theorem createFilesGo_ow_writes (base : List String) :
    ∀ (ts : List FileTemplate) (fs fs' : FS),
      (ts.map fun t => splitPath t.relativePath).Nodup →
      createFilesGo base true ts fs = .ok fs' →
      ∀ t, t ∈ ts →
        lookupFile fs'.files (base ++ splitPath t.relativePath) = some t.getContent := by
  intro ts
  induction ts with
  | nil => intro fs fs' _ _ t ht; cases ht
  | cons x rest ih =>
    intro fs fs' hnd h t ht
    simp only [createFilesGo, Bool.not_true, Bool.and_false, Bool.false_eq_true, if_false] at h
    split at h
    · cases h
    · rename_i fs1 hm
      split at h
      · cases h
      · rename_i fs2 hw
        rcases List.mem_cons.mp ht with rfl | hmem
        · have hne : ∀ u, u ∈ rest →
              base ++ splitPath u.relativePath ≠ base ++ splitPath t.relativePath := by
            intro u hu heq
            have heq2 : splitPath u.relativePath = splitPath t.relativePath := by
              simpa using heq
            have hx : splitPath t.relativePath ∈ rest.map (fun v => splitPath v.relativePath) := by
              rw [← heq2]
              exact List.mem_map_of_mem _ hu
            exact (List.nodup_cons.mp hnd).1 hx
          rw [createFilesGo_preserves_of_ne base true rest fs2 fs' _ h hne]
          obtain ⟨hf2, _, _⟩ := writeText_ok_spec hw
          rw [hf2]
          simp [lookupFile]
        · exact ih fs2 fs' (List.nodup_cons.mp hnd).2 h t hmem

/- ## Claims about the generation pipeline -/

/-- C10: the write step is self-sufficient with respect to directories —
for every template it creates the file's parent directory (with all missing
ancestors, tolerating pre-existing ones) before writing, so a write in step
3 never fails because a parent directory is missing, for every template
list, overwrite flag and starting filesystem (even when the
create-directories step was never run). -/
theorem create_files_self_sufficient (base : List String) (ts : List FileTemplate)
    (ow : Bool) (fs : FS) :
    missingParentErr (createFiles base ts ow fs) = false :=
  create_files_never_missing_parent_aux ts base ow fs

/-- C7: with overwrite disabled the write step leaves the contents of every
pre-existing file unchanged (so a second run is a no-op on existing files);
with overwrite enabled and distinct template paths it replaces each
template's target file contents with that template's content. -/
theorem write_step_semantics (base : List String) (ts : List FileTemplate) (fs : FS) :
    (∀ fs', createFiles base ts false fs = .ok fs' →
      ∀ p c, lookupFile fs.files p = some c → lookupFile fs'.files p = some c)
  ∧ (∀ fs', (ts.map fun t => splitPath t.relativePath).Nodup →
      createFiles base ts true fs = .ok fs' →
      ∀ t, t ∈ ts →
        lookupFile fs'.files (base ++ splitPath t.relativePath) = some t.getContent) :=
  ⟨fun fs' h => createFilesGo_no_ow_preserves base ts fs fs' h,
   fun fs' hnd h t ht => createFilesGo_ow_writes base ts fs fs' hnd h t ht⟩

/-- Witness for C7: a file `p/a.txt` holding "OLD" keeps "OLD" after a
non-overwrite run with a template for `a.txt` holding "NEW", and holds
"NEW" after the overwrite run. -/
theorem write_step_semantics_witness :
    lookupFile [(["p", "a.txt"], "OLD")] ["p", "a.txt"] = some "OLD"
  ∧ lookupFile [(["p", "a.txt"], "NEW"), (["p", "a.txt"], "OLD")] ["p", "a.txt"]
      = some "NEW" :=
  ⟨(write_step_semantics ["p"] [⟨"a.txt", TemplateContent.lit "NEW"⟩]
        ⟨[["p"]], [(["p", "a.txt"], "OLD")], [], []⟩).1
      ⟨[["p"]], [(["p", "a.txt"], "OLD")], [], []⟩ rfl ["p", "a.txt"] "OLD" rfl,
   (write_step_semantics ["p"] [⟨"a.txt", TemplateContent.lit "NEW"⟩]
        ⟨[["p"]], [(["p", "a.txt"], "OLD")], [], []⟩).2
      ⟨[["p"]], [(["p", "a.txt"], "NEW"), (["p", "a.txt"], "OLD")], [], []⟩
      (by decide) rfl ⟨"a.txt", TemplateContent.lit "NEW"⟩ (List.Mem.head _)⟩

/-- C6: an exception from the create-directories or write-files step
propagates out of ProjectCreator.create unchanged, while the
version-control-init and hook-install steps never propagate: whenever
steps 2 and 3 succeed, create returns successfully for every tool
environment (missing tool, non-zero exit, or timeout included). -/
theorem create_failure_semantics (env : ToolEnv) (base : List String)
    (ts : List FileTemplate) (ow : Bool) (fs : FS) :
    (∀ e, createDirectories base ts fs = .error e →
      ProjectCreator.create env base ts ow fs = .error e)
  ∧ (∀ fs1 e, createDirectories base ts fs = .ok fs1 →
      createFiles base ts ow fs1 = .error e →
      ProjectCreator.create env base ts ow fs = .error e)
  ∧ (∀ fs1 fs2, createDirectories base ts fs = .ok fs1 →
      createFiles base ts ow fs1 = .ok fs2 →
      exceptOk (ProjectCreator.create env base ts ow fs) = true) := by
  refine ⟨?_, ?_, ?_⟩
  · intro e h
    simp [ProjectCreator.create, h]
  · intro fs1 e h1 h2
    simp [ProjectCreator.create, h1, h2]
  · intro fs1 fs2 h1 h2
    simp [ProjectCreator.create, h1, h2, exceptOk]

/-- Witness for C6: a run whose target directory is OS-denied propagates
the directory-step error; a clean run succeeds even though every external
tool invocation reports a missing tool. -/
theorem create_failure_semantics_witness :
    ProjectCreator.create ⟨.fileNotFound, .fileNotFound, .fileNotFound⟩ ["proj"]
        [⟨".gitignore", TemplateContent.lit "x"⟩] false ⟨[], [], [["proj"]], []⟩
      = .error (.osError, ⟨[], [], [["proj"]], []⟩)
  ∧ exceptOk (ProjectCreator.create ⟨.fileNotFound, .fileNotFound, .fileNotFound⟩ ["proj"]
        [⟨".gitignore", TemplateContent.lit "x"⟩] false ⟨[], [], [], []⟩) = true :=
  ⟨(create_failure_semantics ⟨.fileNotFound, .fileNotFound, .fileNotFound⟩ ["proj"]
        [⟨".gitignore", TemplateContent.lit "x"⟩] false ⟨[], [], [["proj"]], []⟩).1
      (.osError, ⟨[], [], [["proj"]], []⟩) rfl,
   (create_failure_semantics ⟨.fileNotFound, .fileNotFound, .fileNotFound⟩ ["proj"]
        [⟨".gitignore", TemplateContent.lit "x"⟩] false ⟨[], [], [], []⟩).2.2
      ⟨[["proj"]], [], [], []⟩ ⟨[["proj"]], [(["proj", ".gitignore"], "x")], [], []⟩
      rfl rfl⟩

/-- C2 counterexample: a collected template list containing no
hook-configuration entry (only ".gitignore"; ".pre-commit-config.yaml" is
absent) still leads the pipeline to invoke the hook-installation tool —
`preCommitInstall` is in the run's invocation trace (here with every tool
missing, so `git add` is not reached and the events are exactly git-init
and pre-commit-install). -/
theorem hook_install_unconditional_cex :
    ([⟨".gitignore", TemplateContent.lit "x"⟩] : List FileTemplate).map
        FileTemplate.relativePath = [".gitignore"]
  ∧ ([".gitignore"] : List String).contains ".pre-commit-config.yaml" = false
  ∧ createEvents ⟨.fileNotFound, .fileNotFound, .fileNotFound⟩ ["proj"]
      [⟨".gitignore", TemplateContent.lit "x"⟩] false ⟨[], [], [], []⟩
      = some [ToolEvent.gitInit, ToolEvent.preCommitInstall] :=
  ⟨rfl, rfl, rfl⟩

/-- C2 amended: the hook-install step is attempted on every pipeline run
that reaches it (i.e. whenever the collect/mkdir/write steps succeed),
regardless of whether a hook-configuration file was among the collected
templates; its failures are absorbed. -/
theorem hook_install_always_attempted (env : ToolEnv) (base : List String)
    (ts : List FileTemplate) (ow : Bool) (fs fsDone : FS) (evs : List ToolEvent)
    (h : ProjectCreator.create env base ts ow fs = .ok (fsDone, evs)) :
    ToolEvent.preCommitInstall ∈ evs := by
  unfold ProjectCreator.create at h
  split at h
  · cases h
  · split at h
    · cases h
    · injection h with h'
      have hev := congrArg Prod.snd h'
      simp only [preCommitStep] at hev
      rw [← hev]
      simp [preCommitStep]

/-- Witness for C2's amended theorem at the concrete hook-less run. -/
theorem hook_install_always_attempted_witness :
    ToolEvent.preCommitInstall ∈ [ToolEvent.gitInit, ToolEvent.preCommitInstall] :=
  hook_install_always_attempted ⟨.fileNotFound, .fileNotFound, .fileNotFound⟩ ["proj"]
    [⟨".gitignore", TemplateContent.lit "x"⟩] false ⟨[], [], [], []⟩
    ⟨[["proj"]], [(["proj", ".gitignore"], "x")], [], []⟩
    [ToolEvent.gitInit, ToolEvent.preCommitInstall] rfl
